import Mathlib

/-!
Shallow embedding of the trippy hybrid recommendation core
(src/algorithm: models.py, database.py, age_scorer.py, content_based.py,
collaborative_filter.py, recommendation_engine.py) and proofs about it.

Modelling conventions:
* Python floats are modelled by `ℝ` with exact arithmetic (the square root in
  the cosine similarity forces `ℝ`); float literals of the source keep their
  decimal value.
* Python lists are Lean lists; a Python `dict` is an association list with
  insertion-ordered distinct keys (`setTo` assigns, `addTo` accumulates, both
  keeping the first-insertion position of a key, as CPython dicts do); numpy
  vector operations over the set of common keys become `Finset` sums, which is
  exact because addition of exact reals is commutative.
* Python's slice `l[:n]`, including its negative-`n` semantics, is `pyTake`;
  `sorted(..., key=score, reverse=True)` (a stable descending sort) is
  `List.insertionSort byScoreDesc`, which is stable and sorts descending;
  `str.lower()` is a per-character map `pyLower`; `max`/`min` builtins are
  `pyMax`/`pyMin`.
* The Pinecone semantic-similarity provider is an external collaborator (its
  network calls are not part of this repository's algorithmic core), so the
  engine is parameterised over the provider's `get_recommendations` function,
  mirroring the call made at recommendation_engine.py lines 53-55.
-/

namespace Trippy

/-- Python's binary `max` as an explicit conditional. -/
def pyMax {α : Type} [LinearOrder α] (a b : α) : α := if a < b then b else a

/-- Python's binary `min` as an explicit conditional. -/
def pyMin {α : Type} [LinearOrder α] (a b : α) : α := if b < a then b else a

/-- Python's `str.lower()`, as a per-character map. -/
def pyLower (s : String) : String := ⟨s.data.map Char.toLower⟩

/-- Python substring containment `pat in s`. -/
def strContains (s pat : String) : Prop := pat.toList <:+: s.toList

instance (s pat : String) : Decidable (strContains s pat) :=
  List.decidableInfix pat.toList s.toList

/-- Python's slice `l[:n]` for an `int` bound `n`: a nonnegative `n` keeps the
first `n` elements, a negative `n` drops the last `-n` elements. -/
def pyTake {α : Type} (n : Int) (l : List α) : List α :=
  if 0 ≤ n then l.take n.toNat else l.take (l.length - (-n).toNat)

/-- Lookup in an association list (Python `d[k]` / `d.get(k)`). -/
def lookup? {α : Type} : List (String × α) → String → Option α
  | [], _ => none
  | p :: rest, k => if p.1 = k then some p.2 else lookup? rest k

/-- Lookup with a default (Python `d.get(k, d0)`). -/
def lookupD {α : Type} (m : List (String × α)) (k : String) (d0 : α) : α :=
  (lookup? m k).getD d0

/-- Python dict assignment `d[k] = v`: updates in place or appends a new key. -/
def setTo {α : Type} : List (String × α) → String → α → List (String × α)
  | [], k, v => [(k, v)]
  | p :: rest, k, v => if p.1 = k then (k, v) :: rest else p :: setTo rest k v

/-- Python dict accumulation `d[k] = d.get(k, 0) + w`. -/
def addTo {α : Type} [Add α] : List (String × α) → String → α → List (String × α)
  | [], k, w => [(k, w)]
  | p :: rest, k, w => if p.1 = k then (k, p.2 + w) :: rest else p :: addTo rest k w

/-- Key list of an association list. -/
def keysOf {α : Type} (m : List (String × α)) : List String := m.map Prod.fst

/-- Descending comparison on the score component, the key function of every
`sorted(items, key=lambda x: x[1], reverse=True)` in the source. -/
def byScoreDesc {α β : Type} [LinearOrder β] (x y : α × β) : Prop := y.2 ≤ x.2

instance byScoreDesc_decidable {α β : Type} [LinearOrder β] :
    DecidableRel (byScoreDesc (α := α) (β := β)) :=
  fun x y => inferInstanceAs (Decidable (y.2 ≤ x.2))

instance byScoreDesc_total {α β : Type} [LinearOrder β] :
    IsTotal (α × β) byScoreDesc :=
  ⟨fun x y => Or.symm (le_total x.2 y.2)⟩

instance byScoreDesc_trans {α β : Type} [LinearOrder β] :
    IsTrans (α × β) byScoreDesc :=
  ⟨fun _ _ _ h h2 => le_trans h2 h⟩

/-- Recognized keys of the open `features` dict of models.py (a missing key
models `features.get(key, default)` returning the default). -/
structure Features where
  energy_level : Option String := none
  tags : Option (List String) := none
  age_suitability_profile : Option String := none
  price_range : Option String := none
deriving DecidableEq

/-- Value of `features.get("energy_level", "medium").lower()`. -/
def Features.energyOf (f : Features) : String := pyLower (f.energy_level.getD "medium")

/-- Value of `features.get("tags", [])`. -/
def Features.tagsOf (f : Features) : List String := f.tags.getD []

/-- Value of `features.get("age_suitability_profile", "").lower()`. -/
def Features.ageSuitOf (f : Features) : String :=
  pyLower (f.age_suitability_profile.getD "")

/-- Place model of models.py. -/
structure Place where
  id : String
  name : String
  location : String
  category : String
  features : Features
  description : Option String := none
deriving DecidableEq

/-- Activity model of models.py. -/
structure Activity where
  id : String
  name : String
  place_id : String
  category : String
  features : Features
  description : Option String := none
deriving DecidableEq

/-- The `Place | Activity` union used throughout the scorers. -/
inductive RecItem where
  | place : Place → RecItem
  | activity : Activity → RecItem
deriving DecidableEq

def RecItem.id : RecItem → String
  | .place p => p.id
  | .activity a => a.id

def RecItem.category : RecItem → String
  | .place p => p.category
  | .activity a => a.category

def RecItem.features : RecItem → Features
  | .place p => p.features
  | .activity a => a.features

/-- User model of models.py. -/
structure User where
  id : String
  age : Int
  preferences : List String := []
  travel_history : List String := []
deriving DecidableEq

/-- Interaction model of models.py (`rating` is an `int`, 1 like / -1 dislike). -/
structure Interaction where
  user_id : String
  item_id : String
  item_type : String
  rating : Int
  timestamp : String := ""
deriving DecidableEq

/-- In-memory snapshot of the JSON database of database.py. -/
structure Database where
  users : List User := []
  places : List Place := []
  activities : List Activity := []
  interactions : List Interaction := []

/-- database.py `get_user_interactions`: interactions filtered by user id. -/
def Database.get_user_interactions (db : Database) (user_id : String) :
    List Interaction :=
  db.interactions.filter (fun i => i.user_id = user_id)

/-- database.py `get_places_by_destination`: case-insensitive match on location. -/
def Database.get_places_by_destination (db : Database) (destination : String) :
    List Place :=
  db.places.filter (fun p => pyLower p.location = pyLower destination)

/-- database.py `get_activities_by_destination`: activities whose `place_id`
belongs to a place of the destination (empty when the destination has no
places). -/
def Database.get_activities_by_destination (db : Database) (destination : String) :
    List Activity :=
  let places := db.get_places_by_destination destination
  let place_ids := places.map (fun p => p.id)
  if place_ids.isEmpty then []
  else db.activities.filter (fun a => a.place_id ∈ place_ids)

/-- database.py `get_place_by_id`: first place with the given id. -/
def Database.get_place_by_id (db : Database) (place_id : String) : Option Place :=
  db.places.find? (fun p => p.id = place_id)

/-- database.py `get_activity_by_id`: first activity with the given id. -/
def Database.get_activity_by_id (db : Database) (activity_id : String) :
    Option Activity :=
  db.activities.find? (fun a => a.id = activity_id)

/-- database.py `get_all_users`. -/
def Database.get_all_users (db : Database) : List User := db.users

/-- age_scorer.py `AgeScorer.calculate_multiplier`, rule for rule. -/
noncomputable def AgeScorer.calculate_multiplier (age : Int) (item : RecItem) : ℝ :=
  let energy_level := item.features.energyOf
  let age_suitability := item.features.ageSuitOf
  let category := pyLower item.category
  let multiplier : ℝ :=
    if energy_level = "high" ∨ strContains age_suitability "nightlife" ∨
        strContains category "club" then
      if 18 ≤ age ∧ age ≤ 35 then 1.3
      else if 36 ≤ age ∧ age ≤ 50 then 1.0
      else 0.6
    else if energy_level = "low" ∨ strContains age_suitability "cultural" ∨
        strContains category "museum" then
      if 30 ≤ age then 1.1 else 1.0
    else if strContains age_suitability "family" ∨
        strContains category "family-friendly" then
      if 25 ≤ age ∧ age ≤ 45 then 1.2
      else if age < 25 then 0.9
      else 1.1
    else if strContains age_suitability "educational" ∨
        strContains category "educational" then
      if 40 ≤ age then 1.15 else 1.0
    else if energy_level = "medium" then
      if 25 ≤ age ∧ age ≤ 45 then 1.1 else 1.0
    else 1.0
  pyMax 0.5 (pyMin 1.5 multiplier)

/-- content_based.py: the item looked up for an interaction inside
`extract_user_preferences` (place for `item_type == "place"`, activity
otherwise). -/
def itemFor (db : Database) (inter : Interaction) : Option RecItem :=
  if inter.item_type = "place" then
    (db.get_place_by_id inter.item_id).map RecItem.place
  else
    (db.get_activity_by_id inter.item_id).map RecItem.activity

/-- Loop body of content_based.py `extract_user_preferences` (lines 28-74): the
accumulator is the feature-weight dict together with `total_weight`. -/
noncomputable def contentStep (db : Database) (acc : List (String × ℝ) × ℝ)
    (inter : Interaction) : List (String × ℝ) × ℝ :=
  if inter.rating ≤ 0 then acc
  else
    match itemFor db inter with
    | none => acc
    | some item =>
      let category := pyLower item.category
      let energy_level := item.features.energyOf
      let tags := item.features.tagsOf
      let age_suitability := item.features.ageSuitOf
      let weight : ℝ := (inter.rating : ℝ)
      let fw := addTo acc.1 category weight
      let fw := addTo fw energy_level weight
      let fw := tags.foldl (fun fw2 t => addTo fw2 (pyLower t) weight) fw
      let fw := if age_suitability ≠ "" then addTo fw age_suitability weight else fw
      (fw, acc.2 + weight)

/-- content_based.py `ContentBasedFilter.extract_user_preferences`. -/
noncomputable def ContentBasedFilter.extract_user_preferences (db : Database)
    (user : User) : List (String × ℝ) :=
  let interactions := db.get_user_interactions user.id
  if interactions.isEmpty then []
  else
    let acc := interactions.foldl (contentStep db) ([], 0)
    if 0 < acc.2 then acc.1.map (fun p => (p.1, p.2 / acc.2)) else acc.1

/-- content_based.py `ContentBasedFilter.calculate_item_score`: accumulates a
`(score, matches)` pair over category, energy level, tags (half weight) and
age-suitability profile, then smooths and clamps. -/
noncomputable def ContentBasedFilter.calculate_item_score (item : RecItem)
    (user_preferences : List (String × ℝ)) : ℝ :=
  if user_preferences.isEmpty then 0.5
  else
    let category := pyLower item.category
    let energy_level := item.features.energyOf
    let tags := item.features.tagsOf
    let age_suitability := item.features.ageSuitOf
    let acc0 : ℝ × ℕ := (0, 0)
    let acc1 := match lookup? user_preferences category with
      | some v => (acc0.1 + v, acc0.2 + 1)
      | none => acc0
    let acc2 := match lookup? user_preferences energy_level with
      | some v => (acc1.1 + v, acc1.2 + 1)
      | none => acc1
    let acc3 := tags.foldl
      (fun acc t => match lookup? user_preferences (pyLower t) with
        | some v => (acc.1 + v * 0.5, acc.2 + 1)
        | none => acc) acc2
    let acc4 : ℝ × ℕ := if age_suitability ≠ "" then
        match lookup? user_preferences age_suitability with
        | some v => (acc3.1 + v, acc3.2 + 1)
        | none => acc3
      else acc3
    let score := if 0 < acc4.2 then acc4.1 / ((acc4.2 : ℝ) + 1) else acc4.1
    pyMin 1.0 (pyMax 0.0 score)

/-- content_based.py `ContentBasedFilter.get_recommendations`: scores every
candidate, sorts descending and truncates to `top_n`. -/
noncomputable def ContentBasedFilter.get_recommendations (db : Database)
    (user : User) (places : List Place) (activities : List Activity)
    (top_n : Int) : List (String × ℝ) :=
  let user_preferences := ContentBasedFilter.extract_user_preferences db user
  let item_scores := places.foldl
    (fun m p => setTo m p.id
      (ContentBasedFilter.calculate_item_score (RecItem.place p) user_preferences)) []
  let item_scores := activities.foldl
    (fun m a => setTo m a.id
      (ContentBasedFilter.calculate_item_score (RecItem.activity a) user_preferences))
    item_scores
  pyTake top_n (List.insertionSort byScoreDesc item_scores)

/-- collaborative_filter.py lines 25-26: the per-user item→rating dict built by
a dict comprehension, so a later interaction for the same item overwrites an
earlier one. -/
def ratingMap (interactions : List Interaction) : List (String × Int) :=
  interactions.foldl (fun m inter => setTo m inter.item_id inter.rating) []

/-- Set of item ids rated in a rating dict. -/
def ratedIds (m : List (String × Int)) : Finset String := (keysOf m).toFinset

/-- collaborative_filter.py line 29: the common items of two rating dicts. -/
def commonIds (m1 m2 : List (String × Int)) : Finset String :=
  ratedIds m1 ∩ ratedIds m2

/-- Rating of an item in a rating dict (0 when absent; only looked up for
common items, where it is always present). -/
def ratingOf (m : List (String × Int)) (i : String) : ℤ := (lookup? m i).getD 0

/-- collaborative_filter.py line 39: `np.dot(vec1, vec2)` over the common
items. -/
def dotProd (m1 m2 : List (String × Int)) : ℤ :=
  (commonIds m1 m2).sum (fun i => ratingOf m1 i * ratingOf m2 i)

/-- Squared Euclidean norm of a rating vector restricted to a set of items. -/
def normSqIn (m : List (String × Int)) (c : Finset String) : ℤ :=
  c.sum (fun i => ratingOf m i ^ 2)

/-- Core of collaborative_filter.py `calculate_user_similarity` on the two
rating dicts: 0 when there is no common item or a norm is zero, otherwise the
cosine similarity clamped to be nonnegative. -/
noncomputable def simCore (m1 m2 : List (String × Int)) : ℝ :=
  let c := commonIds m1 m2
  if c = ∅ then 0
  else
    let norm1 := Real.sqrt (normSqIn m1 c)
    let norm2 := Real.sqrt (normSqIn m2 c)
    if norm1 = 0 ∨ norm2 = 0 then 0
    else pyMax 0 ((dotProd m1 m2 : ℝ) / (norm1 * norm2))

/-- collaborative_filter.py `CollaborativeFilter.calculate_user_similarity`. -/
noncomputable def CollaborativeFilter.calculate_user_similarity (db : Database)
    (user1 user2 : User) : ℝ :=
  simCore (ratingMap (db.get_user_interactions user1.id))
    (ratingMap (db.get_user_interactions user2.id))

/-- collaborative_filter.py `CollaborativeFilter.find_similar_users`: every
other user with strictly positive similarity, sorted descending, top K. -/
noncomputable def CollaborativeFilter.find_similar_users (db : Database)
    (target_user : User) (top_k : Nat) : List (User × ℝ) :=
  let others := db.get_all_users.filter (fun u => ¬ u.id = target_user.id)
  let similarities := others.filterMap (fun u =>
    let s := CollaborativeFilter.calculate_user_similarity db target_user u
    if 0 < s then some (u, s) else none)
  (List.insertionSort byScoreDesc similarities).take top_k

/-- Loop body of collaborative_filter.py lines 93-99: accumulate
`similarity * rating` for an unseen, positively rated item. -/
noncomputable def collabStep (user_item_ids : List String) (similarity : ℝ)
    (m : List (String × ℝ)) (inter : Interaction) : List (String × ℝ) :=
  if inter.item_id ∉ user_item_ids ∧ 0 < inter.rating then
    addTo m inter.item_id (similarity * (inter.rating : ℝ))
  else m

/-- collaborative_filter.py lines 88-99: the accumulation over all similar
users' interactions. -/
noncomputable def collabAccum (db : Database) (similar_users : List (User × ℝ))
    (user_item_ids : List String) : List (String × ℝ) :=
  similar_users.foldl
    (fun m su => (db.get_user_interactions su.1.id).foldl
      (collabStep user_item_ids su.2) m) []

/-- Python `max(values)` of a score dict (0 for an empty dict, which the source
never queries). -/
noncomputable def maxVal (m : List (String × ℝ)) : ℝ :=
  match m with
  | [] => 0
  | p :: rest => rest.foldl (fun acc q => pyMax acc q.2) p.2

/-- collaborative_filter.py lines 101-105: divide by the maximum accumulated
score when the dict is nonempty and the maximum is positive. -/
noncomputable def collabNormalize (m : List (String × ℝ)) : List (String × ℝ) :=
  if m.isEmpty then m
  else if 0 < maxVal m then m.map (fun p => (p.1, p.2 / maxVal m)) else m

/-- collaborative_filter.py `CollaborativeFilter.get_recommendations`. -/
noncomputable def CollaborativeFilter.get_recommendations (db : Database)
    (target_user : User) (places : List Place) (activities : List Activity)
    (top_n : Int) : List (String × ℝ) :=
  let similar_users := CollaborativeFilter.find_similar_users db target_user 10
  if similar_users.isEmpty then []
  else
    let user_item_ids :=
      (db.get_user_interactions target_user.id).map (fun i => i.item_id)
    let item_scores := collabAccum db similar_users user_item_ids
    let item_scores := collabNormalize item_scores
    let valid_item_ids := places.map (fun p => p.id) ++ activities.map (fun a => a.id)
    let item_scores := item_scores.filter (fun p => p.1 ∈ valid_item_ids)
    pyTake top_n (List.insertionSort byScoreDesc item_scores)

/-- recommendation_engine.py lines 76-80: resolve an item id among the
destination's places first, then its activities. -/
def findItem (places : List Place) (activities : List Activity)
    (item_id : String) : Option RecItem :=
  match places.find? (fun p => p.id = item_id) with
  | some p => some (RecItem.place p)
  | none => (activities.find? (fun a => a.id = item_id)).map RecItem.activity

/-- recommendation_engine.py lines 63-89: combine the three scores of one item
id with the fixed 0.4/0.3/0.3 weights, apply the age multiplier, and store the
result (ids not resolving to a candidate item are skipped). -/
noncomputable def combineStep (places : List Place) (activities : List Activity)
    (collab_scores content_scores pinecone_scores : List (String × ℝ))
    (age : Int) (m : List (String × ℝ)) (item_id : String) : List (String × ℝ) :=
  let collab_score := lookupD collab_scores item_id 0
  let content_score := lookupD content_scores item_id 0
  let pinecone_score := lookupD pinecone_scores item_id 0
  let base_score := collab_score * 0.4 + content_score * 0.3 + pinecone_score * 0.3
  match findItem places activities item_id with
  | none => m
  | some item =>
    setTo m item_id (base_score * AgeScorer.calculate_multiplier age item)

/-- Signature of the external Pinecone provider's `get_recommendations`
(pinecone_service.py lines 175-220): interactions, candidates, destination and
`top_n` to an item→score map. -/
def PineconeQuery : Type :=
  List Interaction → List Place → List Activity → String → Int →
    List (String × ℝ)

/-- recommendation_engine.py `RecommendationEngine.get_recommendations`,
parameterised over the external Pinecone provider. -/
noncomputable def RecommendationEngine.get_recommendations (db : Database)
    (pinecone : PineconeQuery) (user : User) (destination : String)
    (top_n : Int) : List (RecItem × ℝ) :=
  let places := db.get_places_by_destination destination
  let activities := db.get_activities_by_destination destination
  if places.length = 0 ∧ activities.length = 0 then []
  else
    let collab_scores :=
      CollaborativeFilter.get_recommendations db user places activities (top_n * 3)
    let content_scores :=
      ContentBasedFilter.get_recommendations db user places activities (top_n * 3)
    let user_interactions := db.get_user_interactions user.id
    let pinecone_scores :=
      pinecone user_interactions places activities destination (top_n * 3)
    let all_item_ids :=
      (keysOf collab_scores ++ keysOf content_scores ++ keysOf pinecone_scores).dedup
    let combined_scores := all_item_ids.foldl
      (combineStep places activities collab_scores content_scores pinecone_scores
        user.age) []
    let sorted_items := List.insertionSort byScoreDesc combined_scores
    (pyTake top_n sorted_items).filterMap
      (fun p => (findItem places activities p.1).map (fun item => (item, p.2)))

/-- Number of distinct candidate item ids of a destination. -/
def candidateIdCount (db : Database) (destination : String) : ℕ :=
  (((db.get_places_by_destination destination).map (fun p => p.id) ++
    (db.get_activities_by_destination destination).map (fun a => a.id)).toFinset).card

/-- Pinecone provider that always answers with no semantic hits (the source's
fallback when the index or encoder is unavailable). -/
def pineNone : PineconeQuery := fun _ _ _ _ _ => []

/-- Plain lowercase restaurant place in paris with an empty feature dict, used
as concrete input. -/
def mkPlace (i : String) : Place := ⟨i, i, "paris", "restaurant", ⟨none, none, none, none⟩, none⟩

/-- Concrete 50-year-old user with no interactions. -/
def uSolo : User := ⟨"u1", 50, [], []⟩

/-- Concrete database with a single user and five candidate places. -/
def dbFive : Database :=
  ⟨[uSolo], [mkPlace "q1", mkPlace "q2", mkPlace "q3", mkPlace "q4", mkPlace "q5"], [], []⟩

/-- Concrete database with a single user and one candidate place. -/
def dbOne : Database := ⟨[uSolo], [mkPlace "q1"], [], []⟩

/-- Concrete empty database. -/
def dbEmpty : Database := ⟨[], [], [], []⟩

/-- Concrete user `A` aged 30. -/
def uA : User := ⟨"A", 30, [], []⟩

/-- Concrete user `B` aged 30. -/
def uB : User := ⟨"B", 30, [], []⟩

/-- Database in which user `A` has two interactions with the same item `i1`
(like then dislike) and user `B` likes `i1`. -/
def dbDup : Database :=
  ⟨[uA, uB], [], [],
    [⟨"A", "i1", "place", 1, ""⟩, ⟨"A", "i1", "place", -1, ""⟩,
     ⟨"B", "i1", "place", 1, ""⟩]⟩

/-- Variant of `dbDup` in which the earlier duplicate interaction of `A` is
removed. -/
def dbDupLate : Database :=
  ⟨[uA, uB], [], [],
    [⟨"A", "i1", "place", -1, ""⟩, ⟨"B", "i1", "place", 1, ""⟩]⟩

/-- Variant of `dbDup` in which only the earlier interaction of `A` is kept. -/
def dbDupEarly : Database :=
  ⟨[uA, uB], [], [],
    [⟨"A", "i1", "place", 1, ""⟩, ⟨"B", "i1", "place", 1, ""⟩]⟩

/-- Database for the collaborative-filter witness: `A` likes `i1`; `B` likes
`i1` and `i2`. -/
def dbCollab : Database :=
  ⟨[uA, uB], [mkPlace "i1", mkPlace "i2"], [],
    [⟨"A", "i1", "place", 1, ""⟩, ⟨"B", "i1", "place", 1, ""⟩,
     ⟨"B", "i2", "place", 1, ""⟩]⟩

/-- Concrete item with an empty feature dict (no `energy_level` key) and a
category that triggers no rule. -/
def itemNoEnergy : RecItem := RecItem.place (mkPlace "x")

/-- Concrete item whose explicit energy level matches no rule. -/
def itemOddEnergy : RecItem :=
  RecItem.place ⟨"x", "x", "paris", "plaza", ⟨some "frantic", none, none, none⟩, none⟩

/-- Classification of a dict-building fold step: it either leaves the dict
unchanged or assigns one key satisfying `P`. -/
def SetToStep {α β : Type} (g : List (String × α) → β → List (String × α))
    (P : β → String → Prop) : Prop :=
  ∀ m x, g m x = m ∨ ∃ k v, P x k ∧ g m x = setTo m k v

theorem pyMax_eq_max {α : Type} [LinearOrder α] (a b : α) : pyMax a b = max a b := by
  rcases le_or_lt b a with h | h
  · simp [pyMax, not_lt.mpr h, max_eq_left h]
  · simp [pyMax, h, max_eq_right h.le]

theorem pyMin_eq_min {α : Type} [LinearOrder α] (a b : α) : pyMin a b = min a b := by
  rcases le_or_lt a b with h | h
  · simp [pyMin, not_lt.mpr h, min_eq_left h]
  · simp [pyMin, h, min_eq_right h.le]

theorem pyTake_sublist {α : Type} (n : Int) (l : List α) :
    List.Sublist (pyTake n l) l := by
  unfold pyTake
  split <;> exact List.take_sublist _ l

theorem pyTake_all {α : Type} {n : Int} {l : List α} (hn : 0 ≤ n)
    (hl : (l.length : Int) ≤ n) : pyTake n l = l := by
  unfold pyTake
  rw [if_pos hn]
  exact List.take_of_length_le (by omega)

theorem pyTake_length_le {α : Type} {n : Int} (hn : 0 ≤ n) (l : List α) :
    (pyTake n l).length ≤ n.toNat := by
  unfold pyTake
  rw [if_pos hn]
  simp [List.length_take]

theorem lookup?_isSome_iff {α : Type} (m : List (String × α)) (k : String) :
    (lookup? m k).isSome ↔ k ∈ keysOf m := by
  induction m with
  | nil => simp [lookup?, keysOf]
  | cons p rest ih =>
    by_cases h : p.1 = k
    · simp [lookup?, keysOf, h]
    · simp [lookup?, keysOf, h, ih, Ne.symm h]

theorem lookup?_setTo_self {α : Type} (m : List (String × α)) (k : String) (v : α) :
    lookup? (setTo m k v) k = some v := by
  induction m with
  | nil => simp [setTo, lookup?]
  | cons p rest ih =>
    by_cases h : p.1 = k
    · simp [setTo, h, lookup?]
    · simp [setTo, h, lookup?, ih]

theorem keysOf_setTo {α : Type} (m : List (String × α)) (k : String) (v : α) :
    keysOf (setTo m k v) = if k ∈ keysOf m then keysOf m else keysOf m ++ [k] := by
  induction m with
  | nil => simp [setTo, keysOf]
  | cons p rest ih =>
    by_cases h : p.1 = k
    · subst h
      simp [setTo, keysOf]
    · simp only [setTo, if_neg h, keysOf, List.map_cons] at ih ⊢
      by_cases h2 : k ∈ rest.map Prod.fst
      · rw [ih]
        simp [h2, Ne.symm h]
      · rw [ih]
        simp [h2, Ne.symm h]

theorem mem_keysOf_setTo {α : Type} (m : List (String × α)) (k k2 : String) (v : α) :
    k2 ∈ keysOf (setTo m k v) ↔ k2 ∈ keysOf m ∨ k2 = k := by
  rw [keysOf_setTo]
  by_cases h2 : k ∈ keysOf m
  · rw [if_pos h2]
    constructor
    · exact fun h3 => Or.inl h3
    · rintro (h3 | h3)
      · exact h3
      · exact h3 ▸ h2
  · rw [if_neg h2]
    simp

theorem keysOf_setTo_nodup {α : Type} (m : List (String × α)) (k : String) (v : α)
    (h : (keysOf m).Nodup) : (keysOf (setTo m k v)).Nodup := by
  rw [keysOf_setTo]
  by_cases h2 : k ∈ keysOf m
  · rw [if_pos h2]
    exact h
  · rw [if_neg h2]
    simp [List.nodup_append, h, h2]

theorem setTo_length_le {α : Type} (m : List (String × α)) (k : String) (v : α) :
    (setTo m k v).length ≤ m.length + 1 := by
  induction m with
  | nil => simp [setTo]
  | cons p rest ih =>
    by_cases h : p.1 = k <;> simp [setTo, h] <;> omega

theorem setTo_ne_nil {α : Type} (m : List (String × α)) (k : String) (v : α) :
    setTo m k v ≠ [] := by
  cases m with
  | nil => simp [setTo]
  | cons p rest =>
    by_cases h : p.1 = k <;> simp [setTo, h]

theorem foldl_SetToStep_nodup {α β : Type}
    {g : List (String × α) → β → List (String × α)} {P : β → String → Prop}
    (hg : SetToStep g P) :
    ∀ (l : List β) (m0 : List (String × α)), (keysOf m0).Nodup →
      (keysOf (l.foldl g m0)).Nodup := by
  intro l
  induction l with
  | nil => intro m0 h; simpa using h
  | cons x rest ih =>
    intro m0 h
    simp only [List.foldl_cons]
    rcases hg m0 x with h2 | ⟨k, v, _, h2⟩
    · rw [h2]
      exact ih m0 h
    · rw [h2]
      exact ih _ (keysOf_setTo_nodup _ _ _ h)

theorem mem_keysOf_foldl_SetToStep {α β : Type}
    {g : List (String × α) → β → List (String × α)} {P : β → String → Prop}
    (hg : SetToStep g P) :
    ∀ (l : List β) (m0 : List (String × α)) (k2 : String),
      k2 ∈ keysOf (l.foldl g m0) → k2 ∈ keysOf m0 ∨ ∃ x ∈ l, P x k2 := by
  intro l
  induction l with
  | nil =>
    intro m0 k2 h
    exact Or.inl (by simpa using h)
  | cons x rest ih =>
    intro m0 k2 h
    simp only [List.foldl_cons] at h
    rcases hg m0 x with h2 | ⟨k, v, hP, h2⟩
    · rw [h2] at h
      rcases ih m0 k2 h with h3 | ⟨y, hy, hPy⟩
      · exact Or.inl h3
      · exact Or.inr ⟨y, List.mem_cons_of_mem x hy, hPy⟩
    · rw [h2] at h
      rcases ih _ k2 h with h3 | ⟨y, hy, hPy⟩
      · rw [mem_keysOf_setTo] at h3
        rcases h3 with h3 | h3
        · exact Or.inl h3
        · exact Or.inr ⟨x, List.mem_cons_self x rest, h3 ▸ hP⟩
      · exact Or.inr ⟨y, List.mem_cons_of_mem x hy, hPy⟩

theorem length_foldl_SetToStep_le {α β : Type}
    {g : List (String × α) → β → List (String × α)} {P : β → String → Prop}
    (hg : SetToStep g P) :
    ∀ (l : List β) (m0 : List (String × α)),
      (l.foldl g m0).length ≤ m0.length + l.length := by
  intro l
  induction l with
  | nil => simp
  | cons x rest ih =>
    intro m0
    simp only [List.foldl_cons, List.length_cons]
    rcases hg m0 x with h2 | ⟨k, v, _, h2⟩
    · rw [h2]
      have := ih m0
      omega
    · rw [h2]
      have h3 := ih (setTo m0 k v)
      have h4 := setTo_length_le m0 k v
      omega

theorem foldl_setTo_ne_nil {α β : Type} (key : β → String) (f : β → α) :
    ∀ (l : List β) (m0 : List (String × α)), m0 ≠ [] ∨ l ≠ [] →
      l.foldl (fun m x => setTo m (key x) (f x)) m0 ≠ [] := by
  intro l
  induction l with
  | nil =>
    intro m0 h
    rcases h with h | h
    · simpa using h
    · simp at h
  | cons x rest ih =>
    intro m0 _
    simp only [List.foldl_cons]
    rcases rest.eq_nil_or_concat with h2 | _
    · subst h2
      simpa using setTo_ne_nil m0 (key x) (f x)
    · exact ih _ (Or.inl (setTo_ne_nil m0 (key x) (f x)))

theorem length_le_card_of_nodup_keys {α : Type} (m : List (String × α))
    (S : List String) (hn : (keysOf m).Nodup) (hs : ∀ k ∈ keysOf m, k ∈ S) :
    m.length ≤ S.toFinset.card := by
  have h1 : (keysOf m).toFinset.card = (keysOf m).length :=
    List.toFinset_card_of_nodup hn
  have hlen : m.length = (keysOf m).length := by simp [keysOf]
  rw [hlen, ← h1]
  apply Finset.card_le_card
  intro k hk
  simp only [List.mem_toFinset] at hk ⊢
  exact hs k hk

theorem lookupD_addTo_self {α : Type} [AddCommMonoid α] (m : List (String × α))
    (k : String) (w : α) : lookupD (addTo m k w) k 0 = lookupD m k 0 + w := by
  induction m with
  | nil => simp [addTo, lookupD, lookup?]
  | cons p rest ih =>
    by_cases h : p.1 = k
    · simp [addTo, h, lookupD, lookup?]
    · simp only [addTo, if_neg h, lookupD, lookup?] at ih ⊢
      simp [h, ih]

theorem sorted_map_snd_of_sorted {α β : Type} [LinearOrder β] {l : List (α × β)}
    (h : l.Sorted byScoreDesc) :
    (l.map Prod.snd).Sorted (fun a b : β => b ≤ a) := by
  rw [List.Sorted, List.pairwise_map]
  exact h.imp (fun hr => hr)

theorem filterMap_map_sublist {β γ δ : Type} (f : β → Option γ) (g : γ → δ)
    (h : β → δ) (hf : ∀ x y, f x = some y → g y = h x) :
    ∀ l : List β, List.Sublist ((l.filterMap f).map g) (l.map h) := by
  intro l
  induction l with
  | nil => simp
  | cons x rest ih =>
    cases hfx : f x with
    | none =>
      simp only [List.filterMap_cons, hfx, List.map_cons]
      exact ih.cons (h x)
    | some y =>
      simp only [List.filterMap_cons, hfx, List.map_cons]
      rw [hf x y hfx]
      exact ih.cons₂ (h x)

theorem le_foldl_pyMax : ∀ (l : List (String × ℝ)) (b : ℝ),
    b ≤ l.foldl (fun acc q => pyMax acc q.2) b := by
  intro l
  induction l with
  | nil => simp
  | cons q rest ih =>
    intro b
    simp only [List.foldl_cons]
    refine le_trans ?_ (ih (pyMax b q.2))
    rw [pyMax_eq_max]
    exact le_max_left b q.2

theorem mem_le_foldl_pyMax : ∀ (l : List (String × ℝ)) (b : ℝ) (p : String × ℝ),
    p ∈ l → p.2 ≤ l.foldl (fun acc q => pyMax acc q.2) b := by
  intro l
  induction l with
  | nil => simp
  | cons q rest ih =>
    intro b p hp
    simp only [List.foldl_cons]
    rcases List.mem_cons.mp hp with hp | hp
    · refine le_trans ?_ (le_foldl_pyMax rest (pyMax b q.2))
      rw [pyMax_eq_max, hp]
      exact le_max_right b q.2
    · exact ih (pyMax b q.2) p hp

theorem le_maxVal {m : List (String × ℝ)} {p : String × ℝ} (hp : p ∈ m) :
    p.2 ≤ maxVal m := by
  cases m with
  | nil => simp at hp
  | cons q rest =>
    rcases List.mem_cons.mp hp with h | h
    · rw [h]
      exact le_foldl_pyMax rest q.2
    · exact mem_le_foldl_pyMax rest q.2 p h

theorem foldl_pyMax_attained :
    ∀ (l : List (String × ℝ)) (b : ℝ),
      l.foldl (fun acc q => pyMax acc q.2) b = b ∨
      ∃ q ∈ l, l.foldl (fun acc q => pyMax acc q.2) b = q.2 := by
  intro l
  induction l with
  | nil => intro b; exact Or.inl rfl
  | cons r rest ih =>
    intro b
    simp only [List.foldl_cons]
    rcases ih (pyMax b r.2) with h | ⟨q, hq, he⟩
    · rw [h]
      unfold pyMax
      by_cases hbr : b < r.2
      · rw [if_pos hbr]
        exact Or.inr ⟨r, List.mem_cons_self r rest, rfl⟩
      · rw [if_neg hbr]
        exact Or.inl rfl
    · exact Or.inr ⟨q, List.mem_cons_of_mem r hq, he⟩

theorem maxVal_attained {m : List (String × ℝ)} (hm : m ≠ []) :
    ∃ q ∈ m, q.2 = maxVal m := by
  cases m with
  | nil => exact absurd rfl hm
  | cons p rest =>
    rcases foldl_pyMax_attained rest p.2 with h | ⟨q, hq, he⟩
    · exact ⟨p, List.mem_cons_self p rest, by rw [maxVal, h]⟩
    · exact ⟨q, List.mem_cons_of_mem p hq, by rw [maxVal, he]⟩

theorem maxVal_pos {m : List (String × ℝ)} (hm : m ≠ [])
    (hpos : ∀ p ∈ m, 0 < p.2) : 0 < maxVal m := by
  cases m with
  | nil => exact absurd rfl hm
  | cons q rest =>
    exact lt_of_lt_of_le (hpos q (List.mem_cons_self q rest))
      (le_maxVal (List.mem_cons_self q rest))

theorem collabNormalize_values {m : List (String × ℝ)}
    (hpos : ∀ p ∈ m, 0 < p.2) :
    ∀ p ∈ collabNormalize m, 0 < p.2 ∧ p.2 ≤ 1 := by
  intro p hp
  cases m with
  | nil => simp [collabNormalize] at hp
  | cons q rest =>
    have hmax : 0 < maxVal (q :: rest) := maxVal_pos (by simp) hpos
    rw [collabNormalize, if_neg (by simp), if_pos hmax] at hp
    rcases List.mem_map.mp hp with ⟨r, hr, hrp⟩
    have hr2 : 0 < r.2 := hpos r hr
    constructor
    · rw [← hrp]
      exact div_pos hr2 hmax
    · rw [← hrp]
      exact (div_le_one hmax).mpr (le_maxVal hr)

theorem addTo_pos {α : Type} [LinearOrderedAddCommGroup α] {m : List (String × α)}
    {k : String} {w : α} (hm : ∀ p ∈ m, 0 < p.2) (hw : 0 < w) :
    ∀ p ∈ addTo m k w, 0 < p.2 := by
  induction m with
  | nil =>
    intro p hp
    simp only [addTo, List.mem_singleton] at hp
    simpa [hp] using hw
  | cons q rest ih =>
    intro p hp
    by_cases h : q.1 = k
    · simp only [addTo, if_pos h, List.mem_cons] at hp
      rcases hp with hp | hp
      · have hq : 0 < q.2 := hm q (List.mem_cons_self q rest)
        simpa [hp] using add_pos hq hw
      · exact hm p (List.mem_cons_of_mem q hp)
    · simp only [addTo, if_neg h, List.mem_cons] at hp
      rcases hp with hp | hp
      · exact hp ▸ hm q (List.mem_cons_self q rest)
      · exact ih (fun r hr => hm r (List.mem_cons_of_mem q hr)) p hp

theorem collabStep_pos {user_item_ids : List String} {s : ℝ}
    {m : List (String × ℝ)} {inter : Interaction} (hs : 0 < s)
    (hm : ∀ p ∈ m, 0 < p.2) : ∀ p ∈ collabStep user_item_ids s m inter, 0 < p.2 := by
  unfold collabStep
  by_cases h : inter.item_id ∉ user_item_ids ∧ 0 < inter.rating
  · rw [if_pos h]
    exact addTo_pos hm (mul_pos hs (by exact_mod_cast h.2))
  · rw [if_neg h]
    exact hm

theorem foldl_collabStep_pos {user_item_ids : List String} {s : ℝ} (hs : 0 < s) :
    ∀ (inters : List Interaction) (m : List (String × ℝ)),
      (∀ p ∈ m, 0 < p.2) →
      ∀ p ∈ inters.foldl (collabStep user_item_ids s) m, 0 < p.2 := by
  intro inters
  induction inters with
  | nil => intro m hm; simpa using hm
  | cons x rest ih =>
    intro m hm
    simp only [List.foldl_cons]
    exact ih _ (collabStep_pos hs hm)

theorem collabAccum_pos (db : Database) (user_item_ids : List String) :
    ∀ (similar_users : List (User × ℝ)), (∀ su ∈ similar_users, 0 < su.2) →
      ∀ p ∈ collabAccum db similar_users user_item_ids, 0 < p.2 := by
  have main : ∀ (similar_users : List (User × ℝ)), (∀ su ∈ similar_users, 0 < su.2) →
      ∀ (m : List (String × ℝ)), (∀ p ∈ m, 0 < p.2) →
      ∀ p ∈ similar_users.foldl
        (fun m su => (db.get_user_interactions su.1.id).foldl
          (collabStep user_item_ids su.2) m) m, 0 < p.2 := by
    intro similar_users
    induction similar_users with
    | nil => intro _ m hm; simpa using hm
    | cons su rest ih =>
      intro hsim m hm
      simp only [List.foldl_cons]
      exact ih (fun su2 h2 => hsim su2 (List.mem_cons_of_mem su h2)) _
        (foldl_collabStep_pos (hsim su (List.mem_cons_self su rest)) _ m hm)
  intro similar_users hsim
  exact main similar_users hsim [] (by simp)

theorem find_similar_users_pos (db : Database) (target_user : User) (top_k : Nat) :
    ∀ su ∈ CollaborativeFilter.find_similar_users db target_user top_k, 0 < su.2 := by
  intro su hsu
  unfold CollaborativeFilter.find_similar_users at hsu
  have h1 := List.mem_of_mem_take hsu
  have h2 := (List.perm_insertionSort byScoreDesc _).mem_iff.mp h1
  rcases List.mem_filterMap.mp h2 with ⟨u, _, heq⟩
  by_cases hpos :
      0 < CollaborativeFilter.calculate_user_similarity db target_user u
  · rw [if_pos hpos] at heq
    cases heq
    exact hpos
  · rw [if_neg hpos] at heq
    cases heq

theorem clamp_bounds_lo {lo hi x : ℝ} (h : lo ≤ hi) :
    lo ≤ pyMax lo (pyMin hi x) ∧ pyMax lo (pyMin hi x) ≤ hi := by
  rw [pyMax_eq_max, pyMin_eq_min]
  exact ⟨le_max_left lo _, max_le h (min_le_left hi x)⟩

theorem clamp_bounds_hi {lo hi x : ℝ} (h : lo ≤ hi) :
    lo ≤ pyMin hi (pyMax lo x) ∧ pyMin hi (pyMax lo x) ≤ hi := by
  rw [pyMax_eq_max, pyMin_eq_min]
  exact ⟨le_min h (le_max_left lo x), min_le_left hi _⟩

theorem commonIds_comm (m1 m2 : List (String × Int)) :
    commonIds m1 m2 = commonIds m2 m1 :=
  Finset.inter_comm _ _

theorem dotProd_comm (m1 m2 : List (String × Int)) :
    dotProd m1 m2 = dotProd m2 m1 := by
  unfold dotProd
  rw [commonIds_comm]
  exact Finset.sum_congr rfl (fun i _ => mul_comm _ _)

theorem simCore_comm (m1 m2 : List (String × Int)) :
    simCore m1 m2 = simCore m2 m1 := by
  unfold simCore
  simp only [commonIds_comm m2 m1, dotProd_comm m2 m1]
  by_cases hc : commonIds m1 m2 = ∅
  · simp [hc]
  · by_cases h1 : Real.sqrt (normSqIn m1 (commonIds m1 m2)) = 0 <;>
      by_cases h2 : Real.sqrt (normSqIn m2 (commonIds m1 m2)) = 0 <;>
      simp [hc, h1, h2, mul_comm]

theorem mem_keysOf_foldl_setTo_init {α β : Type} (key : β → String) (f : β → α) :
    ∀ (l : List β) (m0 : List (String × α)) (k : String), k ∈ keysOf m0 →
      k ∈ keysOf (l.foldl (fun m x => setTo m (key x) (f x)) m0) := by
  intro l
  induction l with
  | nil => intro m0 k h; simpa using h
  | cons x rest ih =>
    intro m0 k h
    simp only [List.foldl_cons]
    exact ih _ k ((mem_keysOf_setTo m0 (key x) k (f x)).mpr (Or.inl h))

theorem mem_keysOf_foldl_setTo_elem {α β : Type} (key : β → String) (f : β → α) :
    ∀ (l : List β) (m0 : List (String × α)) (x : β), x ∈ l →
      key x ∈ keysOf (l.foldl (fun m x => setTo m (key x) (f x)) m0) := by
  intro l
  induction l with
  | nil => intro m0 x h; simp at h
  | cons y rest ih =>
    intro m0 x h
    simp only [List.foldl_cons]
    rcases List.mem_cons.mp h with h | h
    · subst h
      exact mem_keysOf_foldl_setTo_init key f rest _ (key x)
        ((mem_keysOf_setTo m0 (key x) (key x) (f x)).mpr (Or.inr rfl))
    · exact ih _ x h

theorem setTo_fold_SetToStep {α β : Type} (key : β → String) (f : β → α) :
    SetToStep (fun m x => setTo m (key x) (f x)) (fun x k => k = key x) :=
  fun _ x => Or.inr ⟨key x, f x, rfl, rfl⟩

theorem findItem_some {places : List Place} {activities : List Activity}
    {item_id : String} {item : RecItem}
    (h : findItem places activities item_id = some item) :
    (item ∈ places.map RecItem.place ∨ item ∈ activities.map RecItem.activity) ∧
      item.id = item_id := by
  unfold findItem at h
  cases hf : places.find? (fun p => p.id = item_id) with
  | some p =>
    rw [hf] at h
    cases h
    refine ⟨Or.inl (List.mem_map_of_mem RecItem.place (List.mem_of_find?_eq_some hf)), ?_⟩
    have := List.find?_some hf
    simpa [RecItem.id] using of_decide_eq_true this
  | none =>
    rw [hf] at h
    rcases Option.map_eq_some'.mp h with ⟨a, ha, hae⟩
    subst hae
    refine ⟨Or.inr (List.mem_map_of_mem RecItem.activity (List.mem_of_find?_eq_some ha)), ?_⟩
    have := List.find?_some ha
    simpa [RecItem.id] using of_decide_eq_true this

theorem findItem_isSome_mem {places : List Place} {activities : List Activity}
    {item_id : String} (h : (findItem places activities item_id).isSome) :
    item_id ∈ places.map (fun p => p.id) ++ activities.map (fun a => a.id) := by
  rcases Option.isSome_iff_exists.mp h with ⟨item, hitem⟩
  rcases findItem_some hitem with ⟨hmem, hid⟩
  rcases hmem with hmem | hmem
  · rcases List.mem_map.mp hmem with ⟨p, hp, hpe⟩
    refine List.mem_append.mpr (Or.inl ?_)
    refine List.mem_map.mpr ⟨p, hp, ?_⟩
    rw [← hid, ← hpe]
    rfl
  · rcases List.mem_map.mp hmem with ⟨a, ha, hae⟩
    refine List.mem_append.mpr (Or.inr ?_)
    refine List.mem_map.mpr ⟨a, ha, ?_⟩
    rw [← hid, ← hae]
    rfl

theorem combineStep_SetToStep (places : List Place) (activities : List Activity)
    (cs1 cs2 cs3 : List (String × ℝ)) (age : Int) :
    SetToStep (combineStep places activities cs1 cs2 cs3 age)
      (fun item_id k => k = item_id ∧ (findItem places activities item_id).isSome) := by
  intro m x
  unfold combineStep
  cases hfi : findItem places activities x with
  | none => exact Or.inl rfl
  | some item =>
    exact Or.inr ⟨x, _, ⟨rfl, by simp [hfi]⟩, rfl⟩

theorem mult50_restaurant (i j : String) :
    AgeScorer.calculate_multiplier 50
      (RecItem.place ⟨i, j, "paris", "restaurant", ⟨none, none, none, none⟩, none⟩) = 1 := by
  simp only [AgeScorer.calculate_multiplier, RecItem.features, RecItem.category,
    Features.energyOf, Features.ageSuitOf, Option.getD]
  rw [if_neg (by decide), if_neg (by decide), if_neg (by decide), if_neg (by decide),
    if_pos (by decide), if_neg (by decide)]
  norm_num [pyMax, pyMin]

theorem engine_dbFive_eval :
    RecommendationEngine.get_recommendations dbFive pineNone uSolo "paris" (-1)
      = [(RecItem.place (mkPlace "q1"), 0.15)] := by
  simp only [RecommendationEngine.get_recommendations]
  norm_num [dbFive, uSolo, mkPlace, pineNone,
    Database.get_places_by_destination, Database.get_activities_by_destination,
    Database.get_user_interactions, pyLower,
    CollaborativeFilter.get_recommendations, CollaborativeFilter.find_similar_users,
    Database.get_all_users, collabAccum, collabNormalize,
    ContentBasedFilter.get_recommendations, ContentBasedFilter.extract_user_preferences,
    ContentBasedFilter.calculate_item_score, setTo,
    List.insertionSort, List.orderedInsert, byScoreDesc, pyTake,
    keysOf, List.dedup, combineStep, lookupD, lookup?, findItem,
    List.filterMap, List.find?, Option.map, mult50_restaurant]

theorem engine_dbOne_eval :
    RecommendationEngine.get_recommendations dbOne pineNone uSolo "paris" (-1) = [] := by
  simp only [RecommendationEngine.get_recommendations]
  norm_num [dbOne, uSolo, mkPlace, pineNone,
    Database.get_places_by_destination, Database.get_activities_by_destination,
    Database.get_user_interactions, pyLower,
    CollaborativeFilter.get_recommendations, CollaborativeFilter.find_similar_users,
    Database.get_all_users, collabAccum, collabNormalize,
    ContentBasedFilter.get_recommendations, ContentBasedFilter.extract_user_preferences,
    ContentBasedFilter.calculate_item_score, setTo,
    List.insertionSort, List.orderedInsert, byScoreDesc, pyTake,
    keysOf, List.dedup, combineStep, lookupD, lookup?, findItem,
    List.filterMap, List.find?, Option.map, mult50_restaurant]

theorem engine_dbEmpty_eval :
    RecommendationEngine.get_recommendations dbEmpty pineNone uSolo "nowhere" 1 = [] := by
  simp only [RecommendationEngine.get_recommendations]
  norm_num [dbEmpty, Database.get_places_by_destination,
    Database.get_activities_by_destination]

theorem content_dbOne_eval :
    lookup?
      (ContentBasedFilter.get_recommendations dbOne uSolo
        [mkPlace "p1", mkPlace "p2"] [] 1) "p2" = none := by
  simp only [ContentBasedFilter.get_recommendations]
  norm_num [ContentBasedFilter.extract_user_preferences, Database.get_user_interactions,
    dbOne, mkPlace, ContentBasedFilter.calculate_item_score, setTo,
    List.insertionSort, List.orderedInsert, byScoreDesc, pyTake, lookup?]
  exact fun h => absurd h (by decide)

theorem simCore_neg_eval : simCore [("i1", -1)] [("i1", 1)] = 0 := by
  simp only [simCore]
  rw [if_neg (by decide : ¬(commonIds [("i1", -1)] [("i1", 1)] = ∅))]
  rw [show normSqIn [("i1", -1)] (commonIds [("i1", -1)] [("i1", 1)]) = 1 from by decide]
  rw [show normSqIn [("i1", 1)] (commonIds [("i1", -1)] [("i1", 1)]) = 1 from by decide]
  rw [show dotProd [("i1", -1)] [("i1", 1)] = -1 from by decide]
  norm_num [Real.sqrt_one, pyMax]

theorem simCore_pos_eval : simCore [("i1", 1)] [("i1", 1)] = 1 := by
  simp only [simCore]
  rw [if_neg (by decide : ¬(commonIds [("i1", 1)] [("i1", 1)] = ∅))]
  rw [show normSqIn [("i1", 1)] (commonIds [("i1", 1)] [("i1", 1)]) = 1 from by decide]
  rw [show dotProd [("i1", 1)] [("i1", 1)] = 1 from by decide]
  norm_num [Real.sqrt_one, pyMax]

theorem simCore_collab_eval : simCore [("i1", 1)] [("i1", 1), ("i2", 1)] = 1 := by
  simp only [simCore]
  rw [if_neg (by decide : ¬(commonIds [("i1", 1)] [("i1", 1), ("i2", 1)] = ∅))]
  rw [show normSqIn [("i1", 1)] (commonIds [("i1", 1)] [("i1", 1), ("i2", 1)]) = 1 from
    by decide]
  rw [show normSqIn [("i1", 1), ("i2", 1)]
      (commonIds [("i1", 1)] [("i1", 1), ("i2", 1)]) = 1 from by decide]
  rw [show dotProd [("i1", 1)] [("i1", 1), ("i2", 1)] = 1 from by decide]
  norm_num [Real.sqrt_one, pyMax]

theorem sim_dbDup_eval :
    CollaborativeFilter.calculate_user_similarity dbDup uA uB = 0 := by
  unfold CollaborativeFilter.calculate_user_similarity
  rw [show ratingMap (dbDup.get_user_interactions uA.id) = [("i1", -1)] from by decide]
  rw [show ratingMap (dbDup.get_user_interactions uB.id) = [("i1", 1)] from by decide]
  exact simCore_neg_eval

theorem sim_dbDupLate_eval :
    CollaborativeFilter.calculate_user_similarity dbDupLate uA uB = 0 := by
  unfold CollaborativeFilter.calculate_user_similarity
  rw [show ratingMap (dbDupLate.get_user_interactions uA.id) = [("i1", -1)] from by decide]
  rw [show ratingMap (dbDupLate.get_user_interactions uB.id) = [("i1", 1)] from by decide]
  exact simCore_neg_eval

theorem sim_dbDupEarly_eval :
    CollaborativeFilter.calculate_user_similarity dbDupEarly uA uB = 1 := by
  unfold CollaborativeFilter.calculate_user_similarity
  rw [show ratingMap (dbDupEarly.get_user_interactions uA.id) = [("i1", 1)] from by decide]
  rw [show ratingMap (dbDupEarly.get_user_interactions uB.id) = [("i1", 1)] from by decide]
  exact simCore_pos_eval

theorem sim_dbCollab_eval :
    CollaborativeFilter.calculate_user_similarity dbCollab uA uB = 1 := by
  unfold CollaborativeFilter.calculate_user_similarity
  rw [show ratingMap (dbCollab.get_user_interactions uA.id) = [("i1", 1)] from by decide]
  rw [show ratingMap (dbCollab.get_user_interactions uB.id) =
      [("i1", 1), ("i2", 1)] from by decide]
  exact simCore_collab_eval

theorem fsu_dbCollab_eval :
    CollaborativeFilter.find_similar_users dbCollab uA 10 = [(uB, 1)] := by
  simp only [CollaborativeFilter.find_similar_users, Database.get_all_users]
  rw [show dbCollab.users = [uA, uB] from rfl]
  rw [show [uA, uB].filter (fun u => ¬ u.id = uA.id) = [uB] from by decide]
  simp only [List.filterMap, sim_dbCollab_eval]
  norm_num [List.insertionSort, List.orderedInsert]

theorem collab_dbCollab_eval :
    CollaborativeFilter.get_recommendations dbCollab uA
      [mkPlace "i1", mkPlace "i2"] [] 5 = [("i2", 1)] := by
  simp only [CollaborativeFilter.get_recommendations, fsu_dbCollab_eval]
  rw [show (dbCollab.get_user_interactions uA.id).map (fun i => i.item_id)
      = ["i1"] from by decide]
  simp only [collabAccum, List.foldl_cons, List.foldl_nil]
  rw [show dbCollab.get_user_interactions (uB, (1 : ℝ)).1.id =
      [⟨"B", "i1", "place", 1, ""⟩, ⟨"B", "i2", "place", 1, ""⟩] from by decide]
  norm_num [collabStep, addTo, collabNormalize, maxVal, mkPlace,
    List.insertionSort, List.orderedInsert, byScoreDesc, pyTake, setTo, pyMax,
    show ¬("i2" = "i1") from by decide]

theorem engine_tail_sorted (places : List Place) (activities : List Activity)
    (c1 c2 c3 : List (String × ℝ)) (age : Int) (ids : List String) (top_n : Int) :
    (((pyTake top_n (List.insertionSort byScoreDesc
        (ids.foldl (combineStep places activities c1 c2 c3 age) []))).filterMap
      (fun p => (findItem places activities p.1).map (fun item => (item, p.2)))).map
        Prod.snd).Sorted (fun a b : ℝ => b ≤ a) := by
  have hsorted : (List.insertionSort byScoreDesc
      (ids.foldl (combineStep places activities c1 c2 c3 age) [])).Sorted byScoreDesc :=
    List.sorted_insertionSort byScoreDesc _
  have htaken := hsorted.sublist (pyTake_sublist top_n _)
  have hsnd := sorted_map_snd_of_sorted htaken
  refine hsnd.sublist ?_
  apply filterMap_map_sublist
  intro x y hxy
  rcases Option.map_eq_some'.mp hxy with ⟨item, _, hye⟩
  rw [← hye]

theorem engine_tail_length (places : List Place) (activities : List Activity)
    (c1 c2 c3 : List (String × ℝ)) (age : Int) (ids : List String) (top_n : Int)
    (htop : 0 ≤ top_n) :
    (((pyTake top_n (List.insertionSort byScoreDesc
        (ids.foldl (combineStep places activities c1 c2 c3 age) []))).filterMap
      (fun p => (findItem places activities p.1).map
        (fun item => (item, p.2)))).length : Int) ≤
      min top_n
        (((places.map (fun p => p.id) ++
          activities.map (fun a => a.id)).toFinset).card : Int) := by
  set combined := ids.foldl (combineStep places activities c1 c2 c3 age) [] with hc
  have hfm : (((pyTake top_n (List.insertionSort byScoreDesc combined)).filterMap
      (fun p => (findItem places activities p.1).map
        (fun item => (item, p.2)))).length) ≤
      (pyTake top_n (List.insertionSort byScoreDesc combined)).length :=
    List.length_filterMap_le _ _
  have htk : (pyTake top_n (List.insertionSort byScoreDesc combined)).length ≤
      top_n.toNat := pyTake_length_le htop _
  have hcomb : (pyTake top_n (List.insertionSort byScoreDesc combined)).length ≤
      combined.length := by
    have h1 := (pyTake_sublist top_n (List.insertionSort byScoreDesc combined)).length_le
    have h2 := List.length_insertionSort byScoreDesc combined
    omega
  have hnodup : (keysOf combined).Nodup :=
    foldl_SetToStep_nodup (combineStep_SetToStep places activities c1 c2 c3 age)
      ids [] (by simp [keysOf])
  have hmem : ∀ k ∈ keysOf combined,
      k ∈ places.map (fun p => p.id) ++ activities.map (fun a => a.id) := by
    intro k hk
    rcases mem_keysOf_foldl_SetToStep
        (combineStep_SetToStep places activities c1 c2 c3 age) ids [] k hk with
      h | ⟨x, _, hxk, hxs⟩
    · simp [keysOf] at h
    · exact hxk ▸ findItem_isSome_mem hxs
  have hcard := length_le_card_of_nodup_keys combined _ hnodup hmem
  rw [Int.le_min]
  constructor
  · calc ((((pyTake top_n (List.insertionSort byScoreDesc combined)).filterMap
        (fun p => (findItem places activities p.1).map
          (fun item => (item, p.2)))).length : Int))
        ≤ (top_n.toNat : Int) := by exact_mod_cast le_trans hfm htk
      _ = top_n := Int.toNat_of_nonneg htop
  · exact_mod_cast le_trans hfm (le_trans hcomb hcard)

theorem engine_tail_forall (places : List Place) (activities : List Activity)
    (c1 c2 c3 : List (String × ℝ)) (age : Int) (ids : List String) (top_n : Int) :
    ∀ q ∈ (pyTake top_n (List.insertionSort byScoreDesc
        (ids.foldl (combineStep places activities c1 c2 c3 age) []))).filterMap
      (fun p => (findItem places activities p.1).map (fun item => (item, p.2))),
      q.1 ∈ places.map RecItem.place ++ activities.map RecItem.activity := by
  intro q hq
  rcases List.mem_filterMap.mp hq with ⟨x, _, hfx⟩
  rcases Option.map_eq_some'.mp hfx with ⟨item, hitem, hqe⟩
  rcases findItem_some hitem with ⟨hmem, _⟩
  rw [← hqe]
  exact List.mem_append.mpr hmem

theorem engine_tail_nodup (places : List Place) (activities : List Activity)
    (c1 c2 c3 : List (String × ℝ)) (age : Int) (ids : List String) (top_n : Int) :
    (((pyTake top_n (List.insertionSort byScoreDesc
        (ids.foldl (combineStep places activities c1 c2 c3 age) []))).filterMap
      (fun p => (findItem places activities p.1).map (fun item => (item, p.2)))).map
        (fun q => q.1.id)).Nodup := by
  set combined := ids.foldl (combineStep places activities c1 c2 c3 age) [] with hc
  have hnodup : (keysOf combined).Nodup :=
    foldl_SetToStep_nodup (combineStep_SetToStep places activities c1 c2 c3 age)
      ids [] (by simp [keysOf])
  have hsortnodup : (keysOf (List.insertionSort byScoreDesc combined)).Nodup := by
    have hperm := (List.perm_insertionSort byScoreDesc combined).map Prod.fst
    exact hnodup.perm hperm.symm
  have htknodup : (keysOf (pyTake top_n (List.insertionSort byScoreDesc combined))).Nodup :=
    hsortnodup.sublist ((pyTake_sublist top_n _).map Prod.fst)
  refine htknodup.sublist ?_
  apply filterMap_map_sublist
  intro x y hxy
  rcases Option.map_eq_some'.mp hxy with ⟨item, hitem, hye⟩
  rcases findItem_some hitem with ⟨_, hid⟩
  rw [← hye]
  exact hid

theorem content_pipeline_props (scoreP : Place → ℝ) (scoreA : Activity → ℝ)
    (places : List Place) (activities : List Activity) (top_n : Int)
    (h : (places.length : Int) + activities.length ≤ top_n) :
    (∀ p ∈ places, (lookup? (pyTake top_n (List.insertionSort byScoreDesc
      (activities.foldl (fun m a => setTo m a.id (scoreA a))
        (places.foldl (fun m p => setTo m p.id (scoreP p)) [])))) p.id).isSome) ∧
    (∀ a ∈ activities, (lookup? (pyTake top_n (List.insertionSort byScoreDesc
      (activities.foldl (fun m a => setTo m a.id (scoreA a))
        (places.foldl (fun m p => setTo m p.id (scoreP p)) [])))) a.id).isSome) ∧
    ((places ≠ [] ∨ activities ≠ []) →
      pyTake top_n (List.insertionSort byScoreDesc
        (activities.foldl (fun m a => setTo m a.id (scoreA a))
          (places.foldl (fun m p => setTo m p.id (scoreP p)) []))) ≠ []) := by
  set M := activities.foldl (fun m a => setTo m a.id (scoreA a))
    (places.foldl (fun m p => setTo m p.id (scoreP p)) []) with hM
  have hlen1 : (places.foldl (fun m p => setTo m p.id (scoreP p)) []).length ≤
      places.length := by
    have := length_foldl_SetToStep_le
      (setTo_fold_SetToStep (fun p : Place => p.id) scoreP) places []
    simpa using this
  have hlenM : M.length ≤ places.length + activities.length := by
    have := length_foldl_SetToStep_le
      (setTo_fold_SetToStep (fun a : Activity => a.id) scoreA) activities
      (places.foldl (fun m p => setTo m p.id (scoreP p)) [])
    rw [hM]
    omega
  have htop : 0 ≤ top_n := by
    have h0 : (0 : Int) ≤ (places.length : Int) + activities.length := by positivity
    omega
  have hsortlen : (List.insertionSort byScoreDesc M).length = M.length :=
    List.length_insertionSort byScoreDesc M
  have htake : pyTake top_n (List.insertionSort byScoreDesc M) =
      List.insertionSort byScoreDesc M := by
    apply pyTake_all htop
    rw [hsortlen]
    have : (M.length : Int) ≤ (places.length : Int) + activities.length := by
      exact_mod_cast hlenM
    omega
  have hkeys : ∀ k, k ∈ keysOf M →
      k ∈ keysOf (List.insertionSort byScoreDesc M) := by
    intro k hk
    exact ((List.perm_insertionSort byScoreDesc M).map Prod.fst).mem_iff.mpr hk
  refine ⟨?_, ?_, ?_⟩
  · intro p hp
    rw [htake, lookup?_isSome_iff]
    apply hkeys
    rw [hM]
    exact mem_keysOf_foldl_setTo_init (fun a : Activity => a.id) scoreA activities _ p.id
      (mem_keysOf_foldl_setTo_elem (fun p : Place => p.id) scoreP places [] p hp)
  · intro a ha
    rw [htake, lookup?_isSome_iff]
    apply hkeys
    rw [hM]
    exact mem_keysOf_foldl_setTo_elem (fun a : Activity => a.id) scoreA activities _ a ha
  · intro hne
    rw [htake]
    have hMne : M ≠ [] := by
      rw [hM]
      rcases hne with hne | hne
      · exact foldl_setTo_ne_nil (fun a : Activity => a.id) scoreA activities _
          (Or.inl (foldl_setTo_ne_nil (fun p : Place => p.id) scoreP places []
            (Or.inr hne)))
      · exact foldl_setTo_ne_nil (fun a : Activity => a.id) scoreA activities _
          (Or.inr hne)
    intro hcon
    apply hMne
    have := hsortlen
    rw [hcon] at this
    exact List.length_eq_zero.mp this.symm

/-- C1 (counterexample): with `top_n = -1` and one candidate place the engine
returns an empty list, whose length 0 is not at most
`min(top_n, number of distinct candidates) = min(-1, 1) = -1`, so the claim's
length bound fails for negative `top_n`. -/
theorem hybrid_truncation_negative_topn_cex :
    ¬(((RecommendationEngine.get_recommendations dbOne pineNone uSolo "paris"
        (-1)).length : Int) ≤ min (-1) ((candidateIdCount dbOne "paris" : Int))) := by
  rw [engine_dbOne_eval]
  rw [show candidateIdCount dbOne "paris" = 1 from by decide]
  norm_num

/-- C1 (amended): the list returned by `RecommendationEngine.get_recommendations`
is always sorted in non-increasing order of final score, and for `top_n ≥ 0` its
length is at most `min(top_n, number of distinct candidate item ids)`. -/
theorem hybrid_output_sorted_and_truncated (db : Database)
    (pinecone : PineconeQuery) (user : User) (destination : String) (top_n : Int) :
    ((RecommendationEngine.get_recommendations db pinecone user destination
        top_n).map Prod.snd).Sorted (fun a b : ℝ => b ≤ a) ∧
    (0 ≤ top_n →
      ((RecommendationEngine.get_recommendations db pinecone user destination
        top_n).length : Int) ≤ min top_n (candidateIdCount db destination)) := by
  constructor
  · simp only [RecommendationEngine.get_recommendations]
    split
    · simp
    · exact engine_tail_sorted _ _ _ _ _ _ _ _
  · intro htop
    have hcount : (0 : Int) ≤ (candidateIdCount db destination : Int) := by positivity
    simp only [RecommendationEngine.get_recommendations]
    split
    · simp only [List.length_nil, Int.natCast_zero]
      rw [Int.le_min]
      exact ⟨htop, hcount⟩
    · unfold candidateIdCount
      exact engine_tail_length _ _ _ _ _ _ _ _ htop

/-- C1 (witness): concrete instance of the amended claim at `top_n = 1` with an
empty destination. -/
theorem hybrid_output_sorted_and_truncated_witness :
    (0 : Int) ≤ 1 ∧
    ((RecommendationEngine.get_recommendations dbEmpty pineNone uSolo "nowhere"
      1).length : Int) ≤ min 1 ((candidateIdCount dbEmpty "nowhere" : Int)) :=
  ⟨by norm_num,
    (hybrid_output_sorted_and_truncated dbEmpty pineNone uSolo "nowhere" 1).2
      (by norm_num)⟩

/-- C2: for every age in [1, 120] and every item, the age multiplier lies in
[0.5, 1.5]. -/
theorem age_multiplier_within_bounds (age : Int) (item : RecItem)
    (h1 : 1 ≤ age) (h2 : age ≤ 120) :
    0.5 ≤ AgeScorer.calculate_multiplier age item ∧
      AgeScorer.calculate_multiplier age item ≤ 1.5 := by
  simp only [AgeScorer.calculate_multiplier]
  exact clamp_bounds_lo (by norm_num)

/-- C2 (witness): concrete instance at age 30 with a plain restaurant item. -/
theorem age_multiplier_within_bounds_witness :
    (1 : Int) ≤ 30 ∧ (30 : Int) ≤ 120 ∧
    (0.5 ≤ AgeScorer.calculate_multiplier 30 itemNoEnergy ∧
      AgeScorer.calculate_multiplier 30 itemNoEnergy ≤ 1.5) :=
  ⟨by norm_num, by norm_num,
    age_multiplier_within_bounds 30 itemNoEnergy (by norm_num) (by norm_num)⟩

/-- C3 (counterexample): with two candidate places and `top_n = 1` the map
returned by `ContentBasedFilter.get_recommendations` has no entry for the
second candidate, so it does not contain a score entry for every candidate. -/
theorem content_map_misses_candidate_cex :
    mkPlace "p2" ∈ ([mkPlace "p1", mkPlace "p2"] : List Place) ∧
    lookup? (ContentBasedFilter.get_recommendations dbOne uSolo
      [mkPlace "p1", mkPlace "p2"] [] 1) (mkPlace "p2").id = none :=
  ⟨by decide, content_dbOne_eval⟩

/-- C3 (amended): whenever `top_n` is at least the number of candidates, the
map returned by `ContentBasedFilter.get_recommendations` contains a score
entry for every candidate item, and it is nonempty whenever at least one
candidate exists. -/
theorem content_map_total_when_topn_large (db : Database) (user : User)
    (places : List Place) (activities : List Activity) (top_n : Int)
    (h : (places.length : Int) + activities.length ≤ top_n) :
    (∀ p ∈ places, (lookup? (ContentBasedFilter.get_recommendations db user
      places activities top_n) p.id).isSome) ∧
    (∀ a ∈ activities, (lookup? (ContentBasedFilter.get_recommendations db user
      places activities top_n) a.id).isSome) ∧
    ((places ≠ [] ∨ activities ≠ []) →
      ContentBasedFilter.get_recommendations db user places activities top_n ≠ []) := by
  have := content_pipeline_props
    (fun p => ContentBasedFilter.calculate_item_score (RecItem.place p)
      (ContentBasedFilter.extract_user_preferences db user))
    (fun a => ContentBasedFilter.calculate_item_score (RecItem.activity a)
      (ContentBasedFilter.extract_user_preferences db user))
    places activities top_n h
  simpa only [ContentBasedFilter.get_recommendations] using this

/-- C3 (witness): concrete instance of the amended claim with one candidate
and `top_n = 2`. -/
theorem content_map_total_when_topn_large_witness :
    ((([mkPlace "p1"] : List Place).length : Int) + ([] : List Activity).length ≤ 2) ∧
    (lookup? (ContentBasedFilter.get_recommendations dbOne uSolo
      [mkPlace "p1"] [] 2) (mkPlace "p1").id).isSome :=
  ⟨by norm_num,
    (content_map_total_when_topn_large dbOne uSolo [mkPlace "p1"] [] 2
      (by norm_num)).1 (mkPlace "p1") (by simp)⟩

/-- C4 (counterexample): with `top_n = -1 ≤ 0` and five candidate places the
engine returns a nonempty list, refuting the claim that every `top_n ≤ 0`
yields an empty result. -/
theorem negative_topn_nonempty_cex :
    (-1 : Int) ≤ 0 ∧
    RecommendationEngine.get_recommendations dbFive pineNone uSolo "paris" (-1)
      ≠ [] := by
  refine ⟨by norm_num, ?_⟩
  rw [engine_dbFive_eval]
  simp

/-- C4 (amended): the engine returns an empty list (and raises no exception,
being a total function) for `top_n = 0`, and for every `top_n` when the
destination has no candidate places and no candidate activities. -/
theorem engine_empty_on_zero_topn_or_no_candidates (db : Database)
    (pinecone : PineconeQuery) (user : User) (destination : String) :
    RecommendationEngine.get_recommendations db pinecone user destination 0 = [] ∧
    (∀ top_n : Int, db.get_places_by_destination destination = [] →
      db.get_activities_by_destination destination = [] →
      RecommendationEngine.get_recommendations db pinecone user destination
        top_n = []) := by
  constructor
  · simp only [RecommendationEngine.get_recommendations]
    split
    · rfl
    · norm_num [pyTake]
  · intro top_n h1 h2
    simp [RecommendationEngine.get_recommendations, h1, h2]

/-- C4 (witness): concrete instance of the amended claim on an empty database. -/
theorem engine_empty_on_zero_topn_or_no_candidates_witness :
    dbEmpty.get_places_by_destination "nowhere" = [] ∧
    dbEmpty.get_activities_by_destination "nowhere" = [] ∧
    RecommendationEngine.get_recommendations dbEmpty pineNone uSolo "nowhere" 7
      = [] :=
  ⟨rfl, rfl,
    (engine_empty_on_zero_topn_or_no_candidates dbEmpty pineNone uSolo
      "nowhere").2 7 rfl rfl⟩

/-- C5 (counterexample): user `A` likes then dislikes the same item `i1`. Her
similarity to `B` equals the similarity computed with the earlier duplicate
interaction deleted, yet differs from the one computed with only the earlier
interaction — the dict comprehension of `calculate_user_similarity` drops the
earlier duplicate's rating, contradicting the claim that no repeated
interaction is dropped in the user-similarity computation. -/
theorem similarity_dedups_duplicates_cex :
    CollaborativeFilter.calculate_user_similarity dbDup uA uB =
      CollaborativeFilter.calculate_user_similarity dbDupLate uA uB ∧
    CollaborativeFilter.calculate_user_similarity dbDupEarly uA uB ≠
      CollaborativeFilter.calculate_user_similarity dbDup uA uB := by
  constructor
  · rw [sim_dbDup_eval, sim_dbDupLate_eval]
  · rw [sim_dbDup_eval, sim_dbDupEarly_eval]
    norm_num

/-- C5 (amended): repeated interactions all contribute in the collaborative
score accumulation and in the content-profile accumulation (appending one more
eligible interaction always adds its weighted rating), but the rating dict of
the user-similarity computation keeps only the last interaction per item id,
dropping earlier repeated ones. -/
theorem duplicate_interactions_contribution :
    (∀ (l : List Interaction) (x : Interaction),
      lookup? (ratingMap (l ++ [x])) x.item_id = some x.rating) ∧
    (∀ (user_item_ids : List String) (s : ℝ) (m : List (String × ℝ))
        (l : List Interaction) (x : Interaction),
      x.item_id ∉ user_item_ids → 0 < x.rating →
      lookupD ((l ++ [x]).foldl (collabStep user_item_ids s) m) x.item_id 0 =
        lookupD (l.foldl (collabStep user_item_ids s) m) x.item_id 0 +
          s * (x.rating : ℝ)) ∧
    (∀ (db : Database) (acc : List (String × ℝ) × ℝ) (l : List Interaction)
        (x : Interaction) (item : RecItem),
      itemFor db x = some item → 0 < x.rating →
      ((l ++ [x]).foldl (contentStep db) acc).2 =
        (l.foldl (contentStep db) acc).2 + (x.rating : ℝ)) := by
  refine ⟨?_, ?_, ?_⟩
  · intro l x
    unfold ratingMap
    rw [List.foldl_append]
    simp only [List.foldl_cons, List.foldl_nil]
    exact lookup?_setTo_self _ _ _
  · intro user_item_ids s m l x hx1 hx2
    rw [List.foldl_append]
    simp only [List.foldl_cons, List.foldl_nil]
    unfold collabStep
    rw [if_pos ⟨hx1, hx2⟩]
    exact lookupD_addTo_self _ _ _
  · intro db acc l x item hitem hx
    rw [List.foldl_append]
    simp only [List.foldl_cons, List.foldl_nil]
    unfold contentStep
    rw [if_neg (not_le.mpr hx), hitem]

/-- C5 (witness): concrete instances of the three parts of the amended claim. -/
theorem duplicate_interactions_contribution_witness :
    (lookup? (ratingMap (([⟨"A", "i1", "place", 1, ""⟩] : List Interaction) ++
      ([⟨"A", "i1", "place", -1, ""⟩] : List Interaction))) "i1" = some (-1)) ∧
    ("i1" ∉ (["z"] : List String)) ∧ ((0 : Int) < 1) ∧
    (lookupD ((([⟨"B", "i1", "place", 1, ""⟩] : List Interaction) ++
        ([⟨"B", "i1", "place", 1, ""⟩] : List Interaction)).foldl
          (collabStep ["z"] 1) []) "i1" 0 =
      lookupD (([⟨"B", "i1", "place", 1, ""⟩] : List Interaction).foldl
        (collabStep ["z"] 1) []) "i1" 0 + 1 * ((1 : Int) : ℝ)) ∧
    (itemFor dbCollab ⟨"B", "i1", "place", 1, ""⟩ =
      some (RecItem.place (mkPlace "i1"))) ∧
    (((([⟨"B", "i1", "place", 1, ""⟩] : List Interaction) ++
        ([⟨"B", "i1", "place", 1, ""⟩] : List Interaction)).foldl
          (contentStep dbCollab) ([], 0)).2 =
      (([⟨"B", "i1", "place", 1, ""⟩] : List Interaction).foldl
        (contentStep dbCollab) ([], 0)).2 + ((1 : Int) : ℝ)) :=
  ⟨duplicate_interactions_contribution.1 [⟨"A", "i1", "place", 1, ""⟩]
      ⟨"A", "i1", "place", -1, ""⟩,
    by decide, by decide,
    duplicate_interactions_contribution.2.1 ["z"] 1 [] [⟨"B", "i1", "place", 1, ""⟩]
      ⟨"B", "i1", "place", 1, ""⟩ (by decide) (by decide),
    by decide,
    duplicate_interactions_contribution.2.2 dbCollab ([], 0)
      [⟨"B", "i1", "place", 1, ""⟩] ⟨"B", "i1", "place", 1, ""⟩
      (RecItem.place (mkPlace "i1")) (by decide) (by decide)⟩

/-- C6: for distinct users the similarity is symmetric, and it is exactly 0
whenever the two users rated no item in common. -/
theorem similarity_symmetric_and_zero_on_disjoint (db : Database)
    (user1 user2 : User) (h : user1 ≠ user2) :
    CollaborativeFilter.calculate_user_similarity db user1 user2 =
      CollaborativeFilter.calculate_user_similarity db user2 user1 ∧
    (commonIds (ratingMap (db.get_user_interactions user1.id))
        (ratingMap (db.get_user_interactions user2.id)) = ∅ →
      CollaborativeFilter.calculate_user_similarity db user1 user2 = 0) := by
  constructor
  · exact simCore_comm _ _
  · intro hc
    unfold CollaborativeFilter.calculate_user_similarity simCore
    simp [hc]

/-- C6 (witness): concrete instance at two distinct users. -/
theorem similarity_symmetric_and_zero_on_disjoint_witness :
    uA ≠ uB ∧
    CollaborativeFilter.calculate_user_similarity dbDup uA uB =
      CollaborativeFilter.calculate_user_similarity dbDup uB uA :=
  ⟨by decide,
    (similarity_symmetric_and_zero_on_disjoint dbDup uA uB (by decide)).1⟩

/-- C7 (counterexample): an item whose features contain no `energy_level` key
and whose category and age-suitability profile trigger no rule still gets
multiplier 1.1 at age 30 (the missing key defaults to "medium", firing rule 5),
refuting the claim that such items always get exactly 1.0. -/
theorem missing_energy_defaults_medium_cex :
    itemNoEnergy.features.energy_level = none ∧
    AgeScorer.calculate_multiplier 30 itemNoEnergy = 1.1 ∧ (1.1 : ℝ) ≠ 1.0 := by
  refine ⟨rfl, ?_, by norm_num⟩
  simp only [itemNoEnergy, mkPlace, AgeScorer.calculate_multiplier,
    RecItem.features, RecItem.category, Features.energyOf, Features.ageSuitOf,
    Option.getD]
  rw [if_neg (by decide), if_neg (by decide), if_neg (by decide),
    if_neg (by decide), if_pos (by decide), if_pos (by decide)]
  norm_num [pyMax, pyMin]

/-- C7 (amended): for every age, an item on which none of the five rule
conditions hold — conditions evaluated on the defaulted feature values, so in
particular the energy level (which defaults to "medium" when the key is
missing) must differ from "high", "low" and "medium" — gets multiplier exactly
1.0. -/
theorem age_multiplier_one_when_no_rule_matches (age : Int) (item : RecItem)
    (h1 : ¬(item.features.energyOf = "high" ∨
      strContains item.features.ageSuitOf "nightlife" ∨
      strContains (pyLower item.category) "club"))
    (h2 : ¬(item.features.energyOf = "low" ∨
      strContains item.features.ageSuitOf "cultural" ∨
      strContains (pyLower item.category) "museum"))
    (h3 : ¬(strContains item.features.ageSuitOf "family" ∨
      strContains (pyLower item.category) "family-friendly"))
    (h4 : ¬(strContains item.features.ageSuitOf "educational" ∨
      strContains (pyLower item.category) "educational"))
    (h5 : ¬(item.features.energyOf = "medium")) :
    AgeScorer.calculate_multiplier age item = 1.0 := by
  simp only [AgeScorer.calculate_multiplier]
  rw [if_neg h1, if_neg h2, if_neg h3, if_neg h4, if_neg h5]
  norm_num [pyMax, pyMin]

/-- C7 (witness): concrete instance with an explicit off-table energy level. -/
theorem age_multiplier_one_when_no_rule_matches_witness :
    (¬(itemOddEnergy.features.energyOf = "high" ∨
      strContains itemOddEnergy.features.ageSuitOf "nightlife" ∨
      strContains (pyLower itemOddEnergy.category) "club")) ∧
    (¬(itemOddEnergy.features.energyOf = "medium")) ∧
    AgeScorer.calculate_multiplier 33 itemOddEnergy = 1.0 :=
  ⟨by decide, by decide,
    age_multiplier_one_when_no_rule_matches 33 itemOddEnergy (by decide)
      (by decide) (by decide) (by decide) (by decide)⟩

/-- C8: every value in the map returned by
`CollaborativeFilter.get_recommendations` lies in the half-open interval
(0, 1]; moreover the normalization step maps some entry of any nonempty
positive accumulation to exactly 1. -/
theorem collab_scores_in_unit_interval (db : Database) (user : User)
    (places : List Place) (activities : List Activity) (top_n : Int) :
    (∀ p ∈ CollaborativeFilter.get_recommendations db user places activities
      top_n, 0 < p.2 ∧ p.2 ≤ 1) ∧
    (∀ m : List (String × ℝ), m ≠ [] → (∀ q ∈ m, 0 < q.2) →
      ∃ q ∈ collabNormalize m, q.2 = 1) := by
  constructor
  · intro p hp
    simp only [CollaborativeFilter.get_recommendations] at hp
    by_cases hs : (CollaborativeFilter.find_similar_users db user 10).isEmpty = true
    · rw [if_pos hs] at hp
      simp at hp
    · rw [if_neg hs] at hp
      have h1 := (pyTake_sublist top_n _).subset hp
      have h2 := (List.perm_insertionSort byScoreDesc _).subset h1
      have h3 := List.mem_of_mem_filter h2
      exact collabNormalize_values
        (collabAccum_pos db _ _ (find_similar_users_pos db user 10)) p h3
  · intro m hm hpos
    cases m with
    | nil => exact absurd rfl hm
    | cons p rest =>
      have hmax0 : 0 < maxVal (p :: rest) := maxVal_pos (by simp) hpos
      obtain ⟨q, hq, hqe⟩ := maxVal_attained (m := p :: rest) (by simp)
      rw [collabNormalize, if_neg (by simp), if_pos hmax0]
      refine ⟨(q.1, q.2 / maxVal (p :: rest)), List.mem_map_of_mem _ hq, ?_⟩
      rw [hqe]
      exact div_self (ne_of_gt hmax0)

/-- C8 (witness): concrete instance where the returned map is `[("i2", 1)]`. -/
theorem collab_scores_in_unit_interval_witness :
    ("i2", (1 : ℝ)) ∈ CollaborativeFilter.get_recommendations dbCollab uA
      [mkPlace "i1", mkPlace "i2"] [] 5 ∧
    (0 < (1 : ℝ) ∧ (1 : ℝ) ≤ 1) := by
  have hm : ("i2", (1 : ℝ)) ∈ CollaborativeFilter.get_recommendations dbCollab uA
      [mkPlace "i1", mkPlace "i2"] [] 5 := by
    rw [collab_dbCollab_eval]
    simp
  exact ⟨hm,
    (collab_scores_in_unit_interval dbCollab uA [mkPlace "i1", mkPlace "i2"] []
      5).1 ("i2", 1) hm⟩

/-- C9: with an empty profile `calculate_item_score` returns exactly 0.5 for
every item, and for every item and profile the score lies in [0, 1]. -/
theorem content_score_neutral_and_bounded :
    (∀ item : RecItem, ContentBasedFilter.calculate_item_score item [] = 0.5) ∧
    ∀ (item : RecItem) (prefs : List (String × ℝ)),
      0 ≤ ContentBasedFilter.calculate_item_score item prefs ∧
      ContentBasedFilter.calculate_item_score item prefs ≤ 1 := by
  constructor
  · intro item
    rfl
  · intro item prefs
    by_cases hp : prefs.isEmpty = true
    · rw [ContentBasedFilter.calculate_item_score, if_pos hp]
      norm_num
    · rw [ContentBasedFilter.calculate_item_score, if_neg hp]
      constructor
      · refine le_trans (by norm_num : (0 : ℝ) ≤ (0.0 : ℝ)) ?_
        exact (clamp_bounds_hi (by norm_num)).1
      · refine le_trans ?_ (by norm_num : (1.0 : ℝ) ≤ 1)
        exact (clamp_bounds_hi (by norm_num)).2

/-- C10: every item in the engine's output is one of the destination's
candidate places or activities, and no item id appears twice in the output. -/
theorem engine_returns_distinct_candidates (db : Database)
    (pinecone : PineconeQuery) (user : User) (destination : String)
    (top_n : Int) :
    ((RecommendationEngine.get_recommendations db pinecone user destination
        top_n).map (fun q => q.1.id)).Nodup ∧
    (RecommendationEngine.get_recommendations db pinecone user destination
        top_n).Forall (fun q =>
      q.1 ∈ (db.get_places_by_destination destination).map RecItem.place ++
        (db.get_activities_by_destination destination).map RecItem.activity) := by
  constructor
  · simp only [RecommendationEngine.get_recommendations]
    split
    · simp
    · exact engine_tail_nodup _ _ _ _ _ _ _ _
  · rw [List.forall_iff_forall_mem]
    intro q hq
    simp only [RecommendationEngine.get_recommendations] at hq
    by_cases hc : (db.get_places_by_destination destination).length = 0 ∧
        (db.get_activities_by_destination destination).length = 0
    · rw [if_pos hc] at hq
      simp at hq
    · rw [if_neg hc] at hq
      exact engine_tail_forall _ _ _ _ _ _ _ _ q hq

end Trippy
